import Mathlib

/-!
# Living Canvas — graph store and execution orchestrator, shallow embedding

This file embeds the core of the Living Canvas Obsidian plugin
(`main.ts`, `src/CanvasManager.ts`, `src/ActionHandler.ts`,
`src/BlockManager.ts`) in Lean 4 and proves properties of the embedded code.

The program of record is the set of named sources that `main.ts` imports
(`src/CanvasManager.ts`, `src/ActionHandler.ts`, `src/BlockManager.ts`,
`src/BlockExecutor.ts`); the repository also contains older unnamed variants
of the same classes, which are not what the plugin entry point loads.

Modelling conventions:
* TypeScript optional fields become `Option`;
* `async` methods that only touch the in-memory graph and the vault are
  modelled as pure state-passing functions; the vault write performed by
  `saveCanvasData` is modelled by appending the full current graph to a
  write log (`Store.writes`);
* methods that `throw` are modelled with `Except String`;
* external collaborators (the block registry lookup and the block executor,
  which performs the provider call) are parameters of the orchestrator
  functions; an executor outcome is `Except String String` (thrown message
  or result text).
-/

namespace LivingCanvas

/-- `'idle' | 'processing' | 'complete' | 'error'` from `CanvasManager.ts`. -/
inductive Status where
  | idle
  | processing
  | complete
  | error
deriving DecidableEq, Repr

/-- `'text' | 'file' | 'link'` — the `type` field of a canvas node. -/
inductive NodeType where
  | text
  | file
  | link
deriving DecidableEq, Repr

/-- `'top' | 'right' | 'bottom' | 'left'` — edge side attributes. -/
inductive EdgeSide where
  | top
  | right
  | bottom
  | left
deriving DecidableEq, Repr

/-- The `livingCanvas` payload of a block node (`CanvasManager.ts`, lines
13–18): `{ blockType, status, config, error? }`.  The `config` record's
values are opaque to the orchestrator, so it is modelled as an association
list of strings. -/
structure LivingCanvasState where
  blockType : String
  status : Status
  config : List (String × String)
  error : Option String := none
deriving DecidableEq, Repr

/-- `CanvasNode` (`CanvasManager.ts`, lines 3–19).  Geometry is modelled
with `Int`; the code only adds and compares coordinates. -/
structure CanvasNode where
  id : String
  type : NodeType
  text : Option String := none
  file : Option String := none
  url : Option String := none
  x : Int
  y : Int
  width : Int
  height : Int
  livingCanvas : Option LivingCanvasState := none
deriving DecidableEq, Repr

/-- `CanvasEdge` (`CanvasManager.ts`, lines 21–29). -/
structure CanvasEdge where
  id : String
  fromNode : String
  toNode : String
  fromSide : Option EdgeSide := none
  toSide : Option EdgeSide := none
  color : Option String := none
  label : Option String := none
deriving DecidableEq, Repr

/-- `CanvasData` (`CanvasManager.ts`, lines 31–34): the full graph of one
canvas document. -/
structure CanvasData where
  nodes : List CanvasNode
  edges : List CanvasEdge
deriving DecidableEq, Repr

/-- `Omit<CanvasNode, 'id'>` — the argument of `createNode`. -/
structure CanvasNodeData where
  type : NodeType
  text : Option String := none
  file : Option String := none
  url : Option String := none
  x : Int
  y : Int
  width : Int
  height : Int
  livingCanvas : Option LivingCanvasState := none
deriving DecidableEq, Repr

/-- `{...nodeData, id: nodeId}` — attach the generated id. -/
def CanvasNodeData.withId (d : CanvasNodeData) (nodeId : String) : CanvasNode :=
  { id := nodeId, type := d.type, text := d.text, file := d.file, url := d.url,
    x := d.x, y := d.y, width := d.width, height := d.height,
    livingCanvas := d.livingCanvas }

/-- `Omit<CanvasEdge, 'id'>` — the argument of `createEdge`. -/
structure CanvasEdgeData where
  fromNode : String
  toNode : String
  fromSide : Option EdgeSide := none
  toSide : Option EdgeSide := none
  color : Option String := none
  label : Option String := none
deriving DecidableEq, Repr

/-- `{...edgeData, id: edgeId}` — attach the generated id. -/
def CanvasEdgeData.withId (d : CanvasEdgeData) (edgeId : String) : CanvasEdge :=
  { id := edgeId, fromNode := d.fromNode, toNode := d.toNode,
    fromSide := d.fromSide, toSide := d.toSide, color := d.color,
    label := d.label }

/-! ## Read-only operations of `CanvasManager` -/

/-- `getNode` (`CanvasManager.ts`, lines 85–88):
`this.canvasData.nodes.find(node => node.id === nodeId)`. -/
def getNode (g : CanvasData) (nodeId : String) : Option CanvasNode :=
  g.nodes.find? (fun node => node.id == nodeId)

/-- `getSourceNodes` (`CanvasManager.ts`, lines 90–99): nodes with an
incoming edge whose `toNode` equals `nodeId`. -/
def getSourceNodes (g : CanvasData) (nodeId : String) : List CanvasNode :=
  let incomingEdges := g.edges.filter (fun edge => edge.toNode == nodeId)
  let sourceNodeIds := incomingEdges.map (fun edge => edge.fromNode)
  g.nodes.filter (fun node => sourceNodeIds.contains node.id)

/-- JavaScript truthiness of the optional string `node.text`:
`undefined` and the empty string are falsy. -/
def textTruthy : Option String → Bool
  | none => false
  | some s => !(s == "")

/-- `getConnectedText` (`CanvasManager.ts`, lines 117–123):
source nodes of type `text` with truthy text, joined by `"\n\n"`. -/
def getConnectedText (g : CanvasData) (nodeId : String) : String :=
  let sourceNodes := getSourceNodes g nodeId
  String.intercalate "\n\n"
    ((sourceNodes.filter
        (fun node => node.type == NodeType.text && textTruthy node.text)).map
      (fun node => node.text.getD ""))

/-! ## Mutating operations of `CanvasManager` (graph level) -/

/-- The partial update passed to `updateNodeData`.  At every call site in
`ActionHandler.ts` the partial object patches exactly the `livingCanvas`
field, so `Partial<CanvasNode>` is modelled restricted to that field. -/
structure CanvasNodePatch where
  livingCanvas : Option LivingCanvasState := none
deriving Repr

/-- `{...node, ...data}` for a patch as above. -/
def applyPatch (node : CanvasNode) (p : CanvasNodePatch) : CanvasNode :=
  match p.livingCanvas with
  | some lc => { node with livingCanvas := some lc }
  | none => node

/-- `updateNodeData` (`CanvasManager.ts`, lines 126–141), graph part:
`findIndex` on the id, `throw` if `-1`, otherwise replace the node at that
index by the merged node. -/
def updateNodeData (g : CanvasData) (nodeId : String) (p : CanvasNodePatch) :
    Except String CanvasData :=
  match g.nodes.findIdx? (fun node => node.id == nodeId) with
  | none => Except.error ("Node " ++ nodeId ++ " not found")
  | some nodeIndex =>
    match g.nodes[nodeIndex]? with
    | none => Except.error ("Node " ++ nodeId ++ " not found")
    | some node =>
      Except.ok { g with nodes := g.nodes.set nodeIndex (applyPatch node p) }

/-- Is `s` the id of some node of `g`?
(`this.canvasData.nodes.some(node => node.id === nodeId)`). -/
def hasNodeId (g : CanvasData) (s : String) : Bool :=
  g.nodes.any (fun node => node.id == s)

/-- Is `s` the id of some edge of `g`? -/
def hasEdgeId (g : CanvasData) (s : String) : Bool :=
  g.edges.any (fun edge => edge.id == s)

/-- The candidate id for counter value `counter`: `` `node_${counter}` ``
(or `` `edge_${counter}` ``). -/
def mkCounterId (stem : String) (counter : Nat) : String :=
  stem ++ Nat.repr counter

/-- The `while` loop shared by `generateNodeId` and `generateEdgeId`
(`CanvasManager.ts`, lines 218–244): starting at `counter`, return the
first candidate `` `stem${counter}` `` not accepted by `taken`.  The source
loop is unbounded; it terminates because the candidates are pairwise
distinct and only finitely many ids are taken, and `fuel` is chosen large
enough that the fuel-out branch is unreachable (see
`generateIdCore_not_taken`). -/
def generateIdCore (taken : String → Bool) (stem : String) :
    Nat → Nat → String
  | 0, counter => mkCounterId stem counter
  | fuel + 1, counter =>
    let candidate := mkCounterId stem counter
    if taken candidate then generateIdCore taken stem fuel (counter + 1)
    else candidate

/-- `generateNodeId` (`CanvasManager.ts`, lines 218–230): counter scan from
`node_1` until a free id is found.  (The `!this.canvasData` fallback of the
source is outside this graph-level model: a graph value is in hand.) -/
def generateNodeId (g : CanvasData) : String :=
  generateIdCore (hasNodeId g) "node_" (g.nodes.length + 1) 1

/-- `generateEdgeId` (`CanvasManager.ts`, lines 232–244). -/
def generateEdgeId (g : CanvasData) : String :=
  generateIdCore (hasEdgeId g) "edge_" (g.edges.length + 1) 1

/-- `createNode` (`CanvasManager.ts`, lines 143–160), graph part: generate
an id, push the node, return the id. -/
def createNode (g : CanvasData) (nodeData : CanvasNodeData) :
    String × CanvasData :=
  let nodeId := generateNodeId g
  let newNode := nodeData.withId nodeId
  (nodeId, { g with nodes := g.nodes ++ [newNode] })

/-- `createEdge` (`CanvasManager.ts`, lines 162–179), graph part: generate
an id, push the edge, return the id.  Note: the source performs no check
that `fromNode`/`toNode` exist in the graph. -/
def createEdge (g : CanvasData) (edgeData : CanvasEdgeData) :
    String × CanvasData :=
  let edgeId := generateEdgeId g
  let newEdge := edgeData.withId edgeId
  (edgeId, { g with edges := g.edges ++ [newEdge] })

/-- `deleteNode` (`CanvasManager.ts`, lines 181–195), graph part: drop the
node with the given id and every edge touching it. -/
def deleteNode (g : CanvasData) (nodeId : String) : CanvasData :=
  { nodes := g.nodes.filter (fun node => !(node.id == nodeId)),
    edges := g.edges.filter
      (fun edge => !(edge.fromNode == nodeId) && !(edge.toNode == nodeId)) }

/-- `getSmartPosition`'s fallback (`CanvasManager.ts`, lines 270–283):
place to the right of the rightmost node, or `(100, 100)` on an empty
graph.  `reduce` without an initial value starts from the first element. -/
def rightmostPosition (g : CanvasData) : Int × Int :=
  match g.nodes with
  | [] => (100, 100)
  | n :: rest =>
    let rightmostNode :=
      rest.foldl (fun rightmost node =>
        if node.x > rightmost.x then node else rightmost) n
    (rightmostNode.x + rightmostNode.width + 50, rightmostNode.y)

/-- `getSmartPosition` (`CanvasManager.ts`, lines 256–284). -/
def getSmartPosition (g : CanvasData) (referenceNodeId : Option String) :
    Int × Int :=
  match referenceNodeId with
  | some rid =>
    match getNode g rid with
    | some referenceNode =>
      (referenceNode.x + referenceNode.width + 50, referenceNode.y)
    | none => rightmostPosition g
  | none => rightmostPosition g

/-! ## The store: in-memory graph plus durable write log

`saveCanvasData` (`CanvasManager.ts`, lines 206–216) serializes the whole
current graph and overwrites the canvas file.  Each mutating manager
operation (`updateNodeData`, `createNode`, `createEdge`, `deleteNode`) ends
with its own `saveCanvasData` call.  The write log records, in order, every
full-graph snapshot handed to the vault. -/

structure Store where
  graph : CanvasData
  writes : List CanvasData
deriving DecidableEq, Repr

/-- `saveCanvasData`: append the current graph to the durable write log. -/
def persist (st : Store) : Store :=
  { st with writes := st.writes ++ [st.graph] }

/-- `updateNodeData` followed by its `saveCanvasData`. -/
def updateNodeDataM (st : Store) (nodeId : String) (p : CanvasNodePatch) :
    Except String Store :=
  match updateNodeData st.graph nodeId p with
  | Except.error e => Except.error e
  | Except.ok g => Except.ok (persist { st with graph := g })

/-- `createNode` followed by its `saveCanvasData`. -/
def createNodeM (st : Store) (nodeData : CanvasNodeData) : String × Store :=
  let (nodeId, g) := createNode st.graph nodeData
  (nodeId, persist { st with graph := g })

/-- `createEdge` followed by its `saveCanvasData`. -/
def createEdgeM (st : Store) (edgeData : CanvasEdgeData) : String × Store :=
  let (edgeId, g) := createEdge st.graph edgeData
  (edgeId, persist { st with graph := g })

/-- `deleteNode` followed by its `saveCanvasData`. -/
def deleteNodeM (st : Store) (nodeId : String) : Store :=
  persist { st with graph := deleteNode st.graph nodeId }

/-! ## Block registry (`BlockManager.ts`) -/

/-- Setting types (`BlockManager.ts`, lines 4–11). -/
inductive SettingType where
  | text
  | textarea
  | dropdown
  | number
  | boolean
deriving DecidableEq, Repr

/-- `BlockSetting` (`BlockManager.ts`, lines 4–11).  Default values are
opaque to the code under verification and are modelled as strings. -/
structure BlockSetting where
  name : String
  description : String
  type : SettingType
  required : Option Bool := none
  default : Option String := none
  options : List (String × String) := []
deriving DecidableEq, Repr

/-- `'core' | 'community'`. -/
inductive Category where
  | core
  | community
deriving DecidableEq, Repr

/-- `BlockDefinition` (`BlockManager.ts`, lines 13–22).  `category` is an
`Option` because the inline clarifier definition built in
`ActionHandler.handleClarifyText` omits the field (JS `undefined`). -/
structure BlockDefinition where
  id : String
  name : String
  description : String
  author : String
  version : String
  category : Option Category := none
  settings : List BlockSetting := []
  executorPath : String
deriving DecidableEq, Repr

/-- The JSON object parsed from a `block.json` manifest, restricted to the
fields `loadBlock` reads.  A field that is absent from the JSON (JS
`undefined`) is `none`; a field that is present — even as the empty
string — is `some`. -/
structure RawBlockConfig where
  id : Option String := none
  name : Option String := none
  description : Option String := none
  author : Option String := none
  version : Option String := none
  category : Option Category := none
  settings : Option (List BlockSetting) := none
deriving DecidableEq, Repr

/-- `validateBlockConfig` (`BlockManager.ts`, lines 137–140):
`requiredFields.every(field => config[field] !== undefined)`. -/
def validateBlockConfig (config : RawBlockConfig) : Bool :=
  config.id.isSome && config.name.isSome && config.description.isSome &&
    config.author.isSome && config.version.isSome

/-- `loadBlock` (`BlockManager.ts`, lines 90–135), after its early guards
(both files exist, JSON parse succeeded): the definition added to the
registry index (`this.blocks.set`), or `none` when validation fails and the
block is skipped.  `category || 'community'` and `settings || []` supply
defaults for absent fields. -/
def loadBlock (config : RawBlockConfig) (executorPath : String) :
    Option BlockDefinition :=
  if validateBlockConfig config then
    some { id := config.id.getD "", name := config.name.getD "",
           description := config.description.getD "",
           author := config.author.getD "",
           version := config.version.getD "",
           category := some (config.category.getD Category.community),
           settings := config.settings.getD [],
           executorPath := executorPath }
  else none

/-! ## Execution orchestrator (`ActionHandler.ts`)

`handleRunBlock` and `handleClarifyText` are modelled as pure functions of
the store.  The block registry lookup (`this.plugin.blockManager`, typed
`any` in the source) and the block executor
(`BlockExecutor.executeBlock`, whose result depends on the external
completion provider) are parameters; an executor call either returns the
result text or throws a message. -/

/-- JavaScript's `String.prototype.trim`: strip whitespace from both ends.
(Lean's own `String.trim` is byte-position based and does not reduce in the
kernel, so the embedding uses this list-based equivalent.) -/
def jsTrim (s : String) : String :=
  ⟨((s.data.dropWhile Char.isWhitespace).reverse.dropWhile
      Char.isWhitespace).reverse⟩

/-- Outcome reported to the user (the `Notice` shown at the end of the
handler). -/
inductive RunOutcome where
  | success
  | failure (message : String)
deriving DecidableEq, Repr

/-- `createOutputNode` (`ActionHandler.ts`, lines 188–203). -/
def createOutputNode (st : Store) (result : String) (sourceNodeId : String) :
    String × Store :=
  let position := getSmartPosition st.graph (some sourceNodeId)
  createNodeM st
    { type := NodeType.text, text := some result,
      x := position.1, y := position.2, width := 300,
      height := max 100 (((result.splitOn "\n").length : Int) * 20 + 40) }

/-- The `catch` block of `handleRunBlock` (`ActionHandler.ts`, lines
84–100): re-read the node; when it exists and is a block, set its status to
`'error'` with the caught message and persist; in every case report the
failure. -/
def runBlockCatch (st : Store) (nodeId message : String) :
    Store × RunOutcome :=
  match getNode st.graph nodeId with
  | some node =>
    match node.livingCanvas with
    | some lc =>
      match updateNodeDataM st nodeId
          ⟨some { lc with status := Status.error, error := some message }⟩ with
      | Except.ok st' => (st', RunOutcome.failure message)
      | Except.error _ => (st, RunOutcome.failure message)
    | none => (st, RunOutcome.failure message)
  | none => (st, RunOutcome.failure message)

/-- `handleRunBlock` (`ActionHandler.ts`, lines 26–101).  Every `throw`
inside the `try` transfers to `runBlockCatch`. -/
def handleRunBlock (lookup : String → Option BlockDefinition)
    (executeBlock :
      BlockDefinition → String → List (String × String) → Except String String)
    (st : Store) (nodeId : String) : Store × RunOutcome :=
  match getNode st.graph nodeId with
  | none => runBlockCatch st nodeId "Node not found or not a Living Canvas block"
  | some node =>
    match node.livingCanvas with
    | none => runBlockCatch st nodeId "Node not found or not a Living Canvas block"
    | some lc =>
      match updateNodeDataM st nodeId
          ⟨some { lc with status := Status.processing }⟩ with
      | Except.error message => runBlockCatch st nodeId message
      | Except.ok st1 =>
        match lookup lc.blockType with
        | none =>
          runBlockCatch st1 nodeId
            ("Block definition not found: " ++ lc.blockType)
        | some blockDefinition =>
          let inputText := getConnectedText st1.graph nodeId
          if jsTrim inputText == "" then
            runBlockCatch st1 nodeId
              "No input text found. Connect text nodes to this block."
          else
            match executeBlock blockDefinition inputText lc.config with
            | Except.error message => runBlockCatch st1 nodeId message
            | Except.ok result =>
              let (outputNodeId, st2) := createOutputNode st1 result nodeId
              let (_, st3) := createEdgeM st2
                { fromNode := nodeId, toNode := outputNodeId,
                  fromSide := some EdgeSide.right,
                  toSide := some EdgeSide.left,
                  color := some "#4CAF50", label := some "output" }
              match updateNodeDataM st3 nodeId
                  ⟨some { lc with status := Status.complete }⟩ with
              | Except.error message => runBlockCatch st3 nodeId message
              | Except.ok st4 => (st4, RunOutcome.success)

/-- The fixed configuration object built in `handleClarifyText`. -/
def clarificationConfig : List (String × String) :=
  [("systemPrompt",
    "You are a helpful assistant that provides clear, accurate explanations and clarifications."),
   ("tone", "helpful and educational"),
   ("outputFormat", "paragraph")]

/-- The inline clarifier block definition built in `handleClarifyText`
(`ActionHandler.ts`, lines 147–155); it has no `category` field. -/
def clarifierBlockDefinition : BlockDefinition :=
  { id := "core/clarifier", name := "AI Clarifier",
    description := "Provides clarifications and explanations",
    author := "Living Canvas", version := "1.0.0",
    settings := [], executorPath := "" }

/-- `handleClarifyText` (`ActionHandler.ts`, lines 103–186): creates the
clarification block node, the input node and their edge, then calls the
executor; on success creates the output node, its edge, and marks the block
complete; any `throw` is caught and only reported. -/
def handleClarifyText
    (executeBlock :
      BlockDefinition → String → List (String × String) → Except String String)
    (st : Store) (selectedText question : String) : Store × RunOutcome :=
  let (clarificationBlockId, st1) := createNodeM st
    { type := NodeType.text, text := some "🤔 AI Clarification",
      x := 100, y := 100, width := 200, height := 50,
      livingCanvas := some
        { blockType := "core/clarifier", status := Status.processing,
          config := clarificationConfig } }
  let (inputNodeId, st2) := createNodeM st1
    { type := NodeType.text,
      text := some ("Question: " ++ question ++ "\n\nText: " ++ selectedText),
      x := 50, y := 50, width := 300, height := 100 }
  let (_, st3) := createEdgeM st2
    { fromNode := inputNodeId, toNode := clarificationBlockId,
      fromSide := some EdgeSide.right, toSide := some EdgeSide.left }
  match executeBlock clarifierBlockDefinition
      ("Question: " ++ question ++ "\n\nText to clarify: " ++ selectedText)
      clarificationConfig with
  | Except.error message =>
    (st3, RunOutcome.failure ("Clarification failed: " ++ message))
  | Except.ok result =>
    let (outputNodeId, st4) := createOutputNode st3 result clarificationBlockId
    let (_, st5) := createEdgeM st4
      { fromNode := clarificationBlockId, toNode := outputNodeId,
        fromSide := some EdgeSide.right, toSide := some EdgeSide.left,
        color := some "#2196F3", label := some "clarification" }
    match updateNodeDataM st5 clarificationBlockId
        ⟨some { blockType := "core/clarifier", status := Status.complete,
                config := clarificationConfig }⟩ with
    | Except.error message =>
      (st5, RunOutcome.failure ("Clarification failed: " ++ message))
    | Except.ok st6 => (st6, RunOutcome.success)

/-! ## The load path (`loadCanvasData`) and queries on the loaded data

`loadCanvasData` assigns `JSON.parse`'s result to `this.canvasData`
without any structural validation; only a thrown parse error is caught and
leaves `canvasData = null`.  Queries then guard on `canvasData` being null
but not on the presence of the `nodes`/`edges` collections. -/

/-- The `nodes`/`edges` properties of a truthy `JSON.parse` result, as the
queries read them: `none` models a property that is absent (JS
`undefined`).  Any truthy non-object value — a number, a string, an
array — simply carries neither property. -/
structure RawCanvasData where
  nodes : Option (List CanvasNode) := none
  edges : Option (List CanvasEdge) := none
deriving DecidableEq, Repr

/-- A JavaScript value as `loadCanvasData`'s consumers observe it: either
falsy — `null` (whether parsed from the literal `null` or assigned by the
`catch` handler), `false`, `0`, `""`, `NaN` — which trips the
`!this.canvasData` guard of every query, or truthy, carrying whatever
`nodes`/`edges` properties it has. -/
inductive ParsedValue where
  | falsy
  | truthy (data : RawCanvasData)
deriving DecidableEq, Repr

/-- Stored content of a canvas document: `JSON.parse` either throws or
returns a value (of any JSON type, not only objects). -/
inductive StoredContent where
  | malformed
  | parsed (value : ParsedValue)
deriving DecidableEq, Repr

/-- `loadCanvasData` (`CanvasManager.ts`, lines 72–82): the parse result is
assigned to `this.canvasData` unchecked — no structural validation; a
parse failure is caught and assigns `canvasData = null`, which is
falsy. -/
def loadCanvasData : StoredContent → ParsedValue
  | StoredContent.malformed => ParsedValue.falsy
  | StoredContent.parsed value => value

/-- `getNode` (`CanvasManager.ts`, lines 85–88) as executed against the
loaded `canvasData`: a falsy value short-circuits to `undefined`; on a
truthy value `this.canvasData.nodes.find(...)` throws a `TypeError` when
the value has no `nodes` array. -/
def getNodeLoaded (canvasData : ParsedValue) (nodeId : String) :
    Except String (Option CanvasNode) :=
  match canvasData with
  | ParsedValue.falsy => Except.ok none
  | ParsedValue.truthy data =>
    match data.nodes with
    | none => Except.error "TypeError: this.canvasData.nodes is undefined"
    | some ns => Except.ok (ns.find? (fun node => node.id == nodeId))

/-- `getSourceNodes` (`CanvasManager.ts`, lines 90–99) as executed against
the loaded `canvasData`: a falsy value short-circuits to `[]`; a truthy
value missing `edges` or `nodes` throws a `TypeError`. -/
def getSourceNodesLoaded (canvasData : ParsedValue)
    (nodeId : String) : Except String (List CanvasNode) :=
  match canvasData with
  | ParsedValue.falsy => Except.ok []
  | ParsedValue.truthy data =>
    match data.edges with
    | none => Except.error "TypeError: this.canvasData.edges is undefined"
    | some es =>
      match data.nodes with
      | none => Except.error "TypeError: this.canvasData.nodes is undefined"
      | some ns => Except.ok (getSourceNodes ⟨ns, es⟩ nodeId)

/-! ## Helper functions used by the proofs -/

/-- Replace the first element accepted by `pred` (the semantics of
`findIndex` followed by an indexed assignment), or `none` when no element
matches.  `updateNodeData` is proved equal to this recursion. -/
def updateFirst {α : Type} (pred : α → Bool) (f : α → α) :
    List α → Option (List α)
  | [] => none
  | a :: l =>
    if pred a then some (f a :: l)
    else (updateFirst pred f l).map (fun l' => a :: l')

/-- The part of a node that `getSourceNodes`/`getConnectedText` and
`getNode`'s id lookup can observe: id, type, text. -/
structure NodeView where
  id : String
  type : NodeType
  text : Option String
deriving DecidableEq, Repr

/-- Project a node to its observable part. -/
def CanvasNode.view (node : CanvasNode) : NodeView :=
  ⟨node.id, node.type, node.text⟩

/-! ## Concrete fixtures used by witnesses and counterexamples -/

/-- A registered block definition. -/
def sampleBlockDef : BlockDefinition :=
  { id := "blockA", name := "Block A", description := "a sample block",
    author := "tester", version := "1.0.0", category := some Category.core,
    settings := [], executorPath := "blocks/blockA/executor.js" }

/-- A registry lookup knowing exactly `sampleBlockDef`. -/
def sampleLookup : String → Option BlockDefinition :=
  fun blockType => if blockType == "blockA" then some sampleBlockDef else none

/-- An executor that always succeeds with a fixed text. -/
def sampleExecOk :
    BlockDefinition → String → List (String × String) → Except String String :=
  fun _ _ _ => Except.ok "ECHO: Hello world"

/-- An executor whose provider call always fails. -/
def sampleExecFail :
    BlockDefinition → String → List (String × String) → Except String String :=
  fun _ _ _ => Except.error "provider down"

/-- Execution state of a block node already running. -/
def procLC : LivingCanvasState :=
  { blockType := "blockA", status := Status.processing, config := [] }

/-- Execution state of an idle block node. -/
def idleLC : LivingCanvasState :=
  { blockType := "blockA", status := Status.idle, config := [] }

/-- A block node currently in `processing`. -/
def procNode : CanvasNode :=
  { id := "p", type := NodeType.text, text := some "block",
    x := 0, y := 0, width := 100, height := 50, livingCanvas := some procLC }

/-- An idle block node. -/
def idleNode : CanvasNode :=
  { id := "p", type := NodeType.text, text := some "block",
    x := 0, y := 0, width := 100, height := 50, livingCanvas := some idleLC }

/-- An upstream text node. -/
def srcNode : CanvasNode :=
  { id := "u", type := NodeType.text, text := some "Hello world",
    x := 0, y := 0, width := 100, height := 50 }

/-- The edge feeding `srcNode` into the block node. -/
def inEdge : CanvasEdge := { id := "edge_1", fromNode := "u", toNode := "p" }

/-- A store whose block node is already `processing`. -/
def sampleStoreProcessing : Store :=
  { graph := { nodes := [srcNode, procNode], edges := [inEdge] }, writes := [] }

/-- A store with an idle block node fed by one text node. -/
def sampleStoreIdle : Store :=
  { graph := { nodes := [srcNode, idleNode], edges := [inEdge] }, writes := [] }

/-- A store with a single block node and no edges at all. -/
def loneBlockStore : Store :=
  { graph := { nodes := [idleNode], edges := [] }, writes := [] }

/-- A store over the empty graph. -/
def emptyStore : Store :=
  { graph := { nodes := [], edges := [] }, writes := [] }

/-- A manifest whose five required fields are all present but whose `id`
is the empty string. -/
def cfgEmptyId : RawBlockConfig :=
  { id := some "", name := some "n", description := some "d",
    author := some "a", version := some "v" }

/-- Node `a` of the two-node cascade fixture. -/
def aN : CanvasNode :=
  { id := "a", type := NodeType.text, text := some "A",
    x := 0, y := 0, width := 100, height := 50 }

/-- Node `b` of the two-node cascade fixture. -/
def bN : CanvasNode :=
  { id := "b", type := NodeType.text, text := some "B",
    x := 200, y := 0, width := 100, height := 50 }

/-- A graph holding exactly the nodes `a` and `b` and no edges. -/
def gAB : CanvasData := { nodes := [aN, bN], edges := [] }

/-- A graph with one node and one dangling edge pointing at the absent id
`"x"`. -/
def gDangling : CanvasData :=
  { nodes := [{ id := "a", type := NodeType.text, text := some "A",
                x := 0, y := 0, width := 100, height := 50 }],
    edges := [{ id := "edge_1", fromNode := "a", toNode := "x" }] }

/-! ## Correctness of the counter-based id generators

The `while` loops of `generateNodeId`/`generateEdgeId` scan candidates
`node_1, node_2, …` against the existing ids.  The candidates are pairwise
distinct strings (decimal rendering of naturals is injective), so among the
first `length + 1` candidates at least one is free.  We first prove that
`Nat.repr` is injective, via a decimal decoder. -/

/-- Numeric value of a decimal digit character. -/
def digitVal (c : Char) : Nat := c.toNat - '0'.toNat

/-- Read a digit string back into a number, most significant digit first. -/
def decodeDigitsAux : List Char → Nat → Nat
  | [], acc => acc
  | c :: cs, acc => decodeDigitsAux cs (acc * 10 + digitVal c)

theorem digitVal_digitChar (d : Nat) (hd : d < 10) :
    digitVal (Nat.digitChar d) = d := by
  interval_cases d <;> rfl

theorem decodeDigitsAux_append (xs ys : List Char) (acc : Nat) :
    decodeDigitsAux (xs ++ ys) acc = decodeDigitsAux ys (decodeDigitsAux xs acc) := by
  induction xs generalizing acc with
  | nil => rfl
  | cons c cs ih => simp [decodeDigitsAux, ih]

theorem toDigitsCore_append (b : Nat) :
    ∀ (fuel n : Nat) (ds : List Char),
      Nat.toDigitsCore b fuel n ds = Nat.toDigitsCore b fuel n [] ++ ds := by
  intro fuel
  induction fuel with
  | zero => intro n ds; simp [Nat.toDigitsCore]
  | succ fuel ih =>
    intro n ds
    simp only [Nat.toDigitsCore]
    by_cases h : n / b = 0
    · simp [h]
    · rw [if_neg h, if_neg h, ih (n / b) (Nat.digitChar (n % b) :: ds),
        ih (n / b) [Nat.digitChar (n % b)], List.append_assoc,
        List.singleton_append]

theorem decode_toDigitsCore :
    ∀ (fuel n acc : Nat), n < 10 ^ fuel →
      decodeDigitsAux (Nat.toDigitsCore 10 fuel n []) acc
        = acc * 10 ^ (Nat.toDigitsCore 10 fuel n []).length + n := by
  intro fuel
  induction fuel with
  | zero =>
    intro n acc hn
    have hn0 : n = 0 := by simpa using hn
    subst hn0
    simp [Nat.toDigitsCore, decodeDigitsAux]
  | succ fuel ih =>
    intro n acc hn
    by_cases h : n / 10 = 0
    · have hn10 : n < 10 := by omega
      have hmod : n % 10 = n := Nat.mod_eq_of_lt hn10
      simp only [Nat.toDigitsCore, if_pos h]
      simp [decodeDigitsAux, hmod, digitVal_digitChar n hn10]
    · have hn' : n / 10 < 10 ^ fuel := by
        apply Nat.div_lt_of_lt_mul
        calc n < 10 ^ (fuel + 1) := hn
          _ = 10 * 10 ^ fuel := by ring
      have hstep : Nat.toDigitsCore 10 (fuel + 1) n []
          = Nat.toDigitsCore 10 fuel (n / 10) [Nat.digitChar (n % 10)] := by
        simp [Nat.toDigitsCore, h]
      rw [hstep, toDigitsCore_append 10 fuel (n / 10) [Nat.digitChar (n % 10)],
        decodeDigitsAux_append, ih (n / 10) acc hn']
      have hm : digitVal (Nat.digitChar (n % 10)) = n % 10 :=
        digitVal_digitChar (n % 10) (Nat.mod_lt n (by norm_num))
      simp only [decodeDigitsAux, hm, List.length_append, List.length_singleton]
      have hdm : 10 * (n / 10) + n % 10 = n := Nat.div_add_mod n 10
      calc (acc * 10 ^ (Nat.toDigitsCore 10 fuel (n / 10) []).length + n / 10) * 10
            + n % 10
          = acc * (10 ^ (Nat.toDigitsCore 10 fuel (n / 10) []).length * 10)
            + (10 * (n / 10) + n % 10) := by ring
        _ = acc * 10 ^ ((Nat.toDigitsCore 10 fuel (n / 10) []).length + 1) + n := by
            rw [hdm, pow_succ]

theorem nat_repr_injective : Function.Injective Nat.repr := by
  intro m n h
  have hdata : (Nat.toDigits 10 m) = (Nat.toDigits 10 n) := by
    have := congrArg String.data h
    simpa [Nat.repr, List.asString] using this
  have hbm : m < 10 ^ (m + 1) :=
    lt_of_lt_of_le (Nat.lt_pow_self (by norm_num) m)
      (Nat.pow_le_pow_right (by norm_num) (Nat.le_succ m))
  have hbn : n < 10 ^ (n + 1) :=
    lt_of_lt_of_le (Nat.lt_pow_self (by norm_num) n)
      (Nat.pow_le_pow_right (by norm_num) (Nat.le_succ n))
  have hm : decodeDigitsAux (Nat.toDigits 10 m) 0 = m := by
    have := decode_toDigitsCore (m + 1) m 0 hbm
    simpa [Nat.toDigits] using this
  have hn : decodeDigitsAux (Nat.toDigits 10 n) 0 = n := by
    have := decode_toDigitsCore (n + 1) n 0 hbn
    simpa [Nat.toDigits] using this
  rw [← hm, ← hn, hdata]

theorem mkCounterId_injective (stem : String) :
    Function.Injective (mkCounterId stem) := by
  intro a b h
  have hdata : (mkCounterId stem a).data = (mkCounterId stem b).data :=
    congrArg String.data h
  have happ : ∀ k : Nat, (mkCounterId stem k).data
      = stem.data ++ (Nat.repr k).data := fun _ => rfl
  rw [happ, happ] at hdata
  have hrepr : (Nat.repr a).data = (Nat.repr b).data :=
    List.append_cancel_left hdata
  exact nat_repr_injective (String.ext hrepr)

theorem generateIdCore_not_taken (taken : String → Bool) (stem : String) :
    ∀ (fuel counter : Nat),
      (∃ j < fuel, taken (mkCounterId stem (counter + j)) = false) →
      taken (generateIdCore taken stem fuel counter) = false := by
  intro fuel
  induction fuel with
  | zero =>
    rintro counter ⟨j, hj, _⟩
    exact absurd hj (Nat.not_lt_zero j)
  | succ fuel ih =>
    rintro counter ⟨j, hj, hfree⟩
    simp only [generateIdCore]
    by_cases h : taken (mkCounterId stem counter)
    · rw [if_pos h]
      apply ih
      have hj0 : j ≠ 0 := by
        rintro rfl
        rw [Nat.add_zero] at hfree
        rw [hfree] at h
        cases h
      exact ⟨j - 1, by omega, by
        have harith : counter + 1 + (j - 1) = counter + j := by omega
        rw [harith]; exact hfree⟩
    · rw [if_neg h]
      simpa using h

theorem exists_free_candidate (ids : List String) (stem : String) :
    ∃ j < ids.length + 1, mkCounterId stem (1 + j) ∉ ids := by
  by_contra hcon
  push_neg at hcon
  have hsub : ((List.range (ids.length + 1)).map
      (fun j => mkCounterId stem (1 + j))) ⊆ ids := by
    intro s hs
    simp only [List.mem_map, List.mem_range] at hs
    obtain ⟨j, hj, rfl⟩ := hs
    exact hcon j hj
  have hnodup : ((List.range (ids.length + 1)).map
      (fun j => mkCounterId stem (1 + j))).Nodup := by
    refine List.Nodup.map ?_ (List.nodup_range _)
    intro a b hab
    have := mkCounterId_injective stem hab
    omega
  have h1 : ((List.range (ids.length + 1)).map
      (fun j => mkCounterId stem (1 + j))).toFinset.card = ids.length + 1 := by
    rw [List.toFinset_card_of_nodup hnodup, List.length_map, List.length_range]
  have h2 : ((List.range (ids.length + 1)).map
      (fun j => mkCounterId stem (1 + j))).toFinset ⊆ ids.toFinset := by
    intro x hx
    rw [List.mem_toFinset] at hx ⊢
    exact hsub hx
  have h3 := Finset.card_le_card h2
  have h4 := ids.toFinset_card_le
  omega

theorem any_beq_eq_false_iff (l : List String) (s : String) :
    (l.any (fun x => x == s)) = false ↔ s ∉ l := by
  rw [← Bool.not_eq_true, List.any_eq_true]
  constructor
  · intro h hmem
    exact h ⟨s, hmem, by simp⟩
  · rintro hns ⟨x, hx, hxs⟩
    rw [beq_iff_eq] at hxs
    exact hns (hxs ▸ hx)

theorem any_map_eq {α β : Type} (l : List α) (f : α → β) (p : β → Bool) :
    (l.map f).any p = l.any (fun a => p (f a)) := by
  induction l with
  | nil => rfl
  | cons a l ih => simp [ih]

theorem hasNodeId_eq_false_iff (g : CanvasData) (s : String) :
    hasNodeId g s = false ↔ s ∉ g.nodes.map (fun node => node.id) := by
  rw [show hasNodeId g s = (g.nodes.map (fun node => node.id)).any
      (fun x => x == s) from
      (any_map_eq g.nodes (fun node => node.id) (fun x => x == s)).symm]
  exact any_beq_eq_false_iff _ s

theorem hasEdgeId_eq_false_iff (g : CanvasData) (s : String) :
    hasEdgeId g s = false ↔ s ∉ g.edges.map (fun edge => edge.id) := by
  rw [show hasEdgeId g s = (g.edges.map (fun edge => edge.id)).any
      (fun x => x == s) from
      (any_map_eq g.edges (fun edge => edge.id) (fun x => x == s)).symm]
  exact any_beq_eq_false_iff _ s

/-- The generated node id is never the id of an existing node. -/
theorem generateNodeId_fresh (g : CanvasData) :
    hasNodeId g (generateNodeId g) = false := by
  apply generateIdCore_not_taken
  obtain ⟨j, hj, hfree⟩ :=
    exists_free_candidate (g.nodes.map (fun node => node.id)) "node_"
  refine ⟨j, by simpa using hj, ?_⟩
  exact (hasNodeId_eq_false_iff g _).mpr hfree

/-- The generated edge id is never the id of an existing edge. -/
theorem generateEdgeId_fresh (g : CanvasData) :
    hasEdgeId g (generateEdgeId g) = false := by
  apply generateIdCore_not_taken
  obtain ⟨j, hj, hfree⟩ :=
    exists_free_candidate (g.edges.map (fun edge => edge.id)) "edge_"
  refine ⟨j, by simpa using hj, ?_⟩
  exact (hasEdgeId_eq_false_iff g _).mpr hfree

/-! ## `updateNodeData` characterised by `updateFirst` -/

theorem updateCore_eq_updateFirst {α : Type} (pred : α → Bool) (f : α → α) :
    ∀ l : List α,
      (match l.findIdx? pred with
        | none => (none : Option (List α))
        | some i =>
          match l[i]? with
          | none => none
          | some a => some (l.set i (f a))) = updateFirst pred f l := by
  intro l
  induction l with
  | nil => rfl
  | cons a l ih =>
    by_cases h : pred a
    · simp [List.findIdx?_cons, h, updateFirst]
    · simp only [List.findIdx?_cons, updateFirst]
      rw [if_neg h, if_neg h]
      rw [show List.findIdx? pred l 1 = (List.findIdx? pred l).map (· + 1) from
        List.findIdx?_succ]
      cases hidx : List.findIdx? pred l with
      | none =>
        rw [hidx] at ih
        rw [← ih]
        rfl
      | some i =>
        rw [hidx] at ih
        rw [← ih]
        cases hget : l[i]? with
        | none => simp [hget]
        | some b => simp [hget]

theorem updateNodeData_eq (g : CanvasData) (nodeId : String)
    (p : CanvasNodePatch) :
    updateNodeData g nodeId p =
      match updateFirst (fun node => node.id == nodeId)
          (fun node => applyPatch node p) g.nodes with
      | none => Except.error ("Node " ++ nodeId ++ " not found")
      | some ns => Except.ok { g with nodes := ns } := by
  have h := updateCore_eq_updateFirst (fun node => node.id == nodeId)
    (fun node => applyPatch node p) g.nodes
  unfold updateNodeData
  rw [← h]
  cases hidx : g.nodes.findIdx? (fun node => node.id == nodeId) with
  | none => rfl
  | some i =>
    cases hget : g.nodes[i]? with
    | none => simp [hget]
    | some a => simp [hget]

theorem find?_eq_some_decomp {α : Type} (pred : α → Bool) :
    ∀ (l : List α) (a : α), l.find? pred = some a →
      ∃ l₁ l₂, l = l₁ ++ a :: l₂ ∧ (∀ x ∈ l₁, pred x = false) ∧
        pred a = true := by
  intro l
  induction l with
  | nil => intro a h; cases h
  | cons b l ih =>
    intro a h
    by_cases hb : pred b
    · rw [List.find?_cons_of_pos _ hb] at h
      cases h
      exact ⟨[], l, rfl, by simp, hb⟩
    · rw [List.find?_cons_of_neg _ hb] at h
      obtain ⟨l₁, l₂, rfl, hl₁, ha⟩ := ih a h
      refine ⟨b :: l₁, l₂, rfl, ?_, ha⟩
      intro x hx
      rcases List.mem_cons.mp hx with rfl | hx
      · simpa using hb
      · exact hl₁ x hx

theorem updateFirst_append {α : Type} (pred : α → Bool) (f : α → α)
    (l₁ l₂ : List α) (a : α) (hl₁ : ∀ x ∈ l₁, pred x = false)
    (ha : pred a = true) :
    updateFirst pred f (l₁ ++ a :: l₂) = some (l₁ ++ f a :: l₂) := by
  induction l₁ with
  | nil => simp [updateFirst, ha]
  | cons b l₁ ih =>
    have hb : pred b = false := hl₁ b (List.mem_cons_self b l₁)
    simp [updateFirst, hb,
      ih (fun x hx => hl₁ x (List.mem_cons_of_mem b hx))]

theorem view_applyPatch (node : CanvasNode) (p : CanvasNodePatch) :
    (applyPatch node p).view = node.view := by
  cases p with
  | mk lcOpt => cases lcOpt <;> rfl

theorem id_applyPatch (node : CanvasNode) (p : CanvasNodePatch) :
    (applyPatch node p).id = node.id := by
  cases p with
  | mk lcOpt => cases lcOpt <;> rfl

theorem find?_eq_none_of_all {α : Type} (pred : α → Bool) (l : List α)
    (h : ∀ x ∈ l, pred x = false) : l.find? pred = none := by
  induction l with
  | nil => rfl
  | cons a l ih =>
    rw [List.find?_cons_of_neg _ (by simpa using h a (List.mem_cons_self a l))]
    exact ih (fun x hx => h x (List.mem_cons_of_mem a hx))

/-- Successful `updateNodeData` after a successful `getNode`: the patched
node is found at the same place, the edges and the observable views of all
nodes are unchanged, and the node count is preserved. -/
theorem updateNodeData_spec (g : CanvasData) (nodeId : String)
    (p : CanvasNodePatch) (node : CanvasNode)
    (h : getNode g nodeId = some node) :
    ∃ g', updateNodeData g nodeId p = Except.ok g' ∧
      getNode g' nodeId = some (applyPatch node p) ∧
      g'.edges = g.edges ∧
      g'.nodes.map CanvasNode.view = g.nodes.map CanvasNode.view ∧
      g'.nodes.length = g.nodes.length := by
  obtain ⟨l₁, l₂, hdecomp, hl₁, ha⟩ :=
    find?_eq_some_decomp (fun n => n.id == nodeId) g.nodes node
      (by simpa [getNode] using h)
  refine ⟨{ g with nodes := l₁ ++ applyPatch node p :: l₂ }, ?_, ?_, rfl, ?_, ?_⟩
  · rw [updateNodeData_eq, hdecomp,
      updateFirst_append (fun n => n.id == nodeId)
        (fun n => applyPatch n p) l₁ l₂ node hl₁ ha]
  · show (l₁ ++ applyPatch node p :: l₂).find? (fun n => n.id == nodeId)
      = some (applyPatch node p)
    rw [List.find?_append, find?_eq_none_of_all _ l₁ hl₁,
      List.find?_cons_of_pos _ (by rw [id_applyPatch]; exact ha)]
    rfl
  · show (l₁ ++ applyPatch node p :: l₂).map CanvasNode.view
      = g.nodes.map CanvasNode.view
    rw [hdecomp, List.map_append, List.map_append, List.map_cons,
      List.map_cons, view_applyPatch]
  · show (l₁ ++ applyPatch node p :: l₂).length = g.nodes.length
    rw [hdecomp]
    simp

/-- Store-level version of `updateNodeData_spec`, recording the durable
write performed by `saveCanvasData`. -/
theorem updateNodeDataM_spec (st : Store) (nodeId : String)
    (p : CanvasNodePatch) (node : CanvasNode)
    (h : getNode st.graph nodeId = some node) :
    ∃ st', updateNodeDataM st nodeId p = Except.ok st' ∧
      getNode st'.graph nodeId = some (applyPatch node p) ∧
      st'.graph.edges = st.graph.edges ∧
      st'.graph.nodes.map CanvasNode.view
        = st.graph.nodes.map CanvasNode.view ∧
      st'.graph.nodes.length = st.graph.nodes.length ∧
      st'.writes = st.writes ++ [st'.graph] := by
  obtain ⟨g', hup, hfind, hedges, hview, hlen⟩ :=
    updateNodeData_spec st.graph nodeId p node h
  refine ⟨persist { st with graph := g' }, ?_, hfind, hedges, hview, hlen, rfl⟩
  unfold updateNodeDataM
  rw [hup]

/-! ## `getConnectedText` depends only on the edges and the node views -/

theorem filter_map_factor {α β γ : Type} (P : β → Bool) (F : β → γ)
    (v : α → β) :
    ∀ l : List α, (l.filter (fun a => P (v a))).map (fun a => F (v a)) =
      ((l.map v).filter P).map F := by
  intro l
  induction l with
  | nil => rfl
  | cons a l ih =>
    by_cases h : P (v a) <;> simp [List.filter_cons, h, ih]

/-- `getConnectedText` factored through `CanvasNode.view`. -/
theorem getConnectedText_factor (g : CanvasData) (nodeId : String) :
    getConnectedText g nodeId = String.intercalate "\n\n"
      (((g.nodes.map CanvasNode.view).filter (fun w =>
          (w.type == NodeType.text && textTruthy w.text) &&
            ((g.edges.filter (fun edge => edge.toNode == nodeId)).map
              (fun edge => edge.fromNode)).contains w.id)).map
        (fun w => w.text.getD "")) := by
  unfold getConnectedText getSourceNodes
  dsimp only
  rw [List.filter_filter]
  exact congrArg (String.intercalate "\n\n")
    (filter_map_factor
      (fun w => (w.type == NodeType.text && textTruthy w.text) &&
        ((g.edges.filter (fun edge => edge.toNode == nodeId)).map
          (fun edge => edge.fromNode)).contains w.id)
      (fun w => w.text.getD "") CanvasNode.view g.nodes)

theorem getConnectedText_congr (g₁ g₂ : CanvasData) (nodeId : String)
    (he : g₁.edges = g₂.edges)
    (hv : g₁.nodes.map CanvasNode.view = g₂.nodes.map CanvasNode.view) :
    getConnectedText g₁ nodeId = getConnectedText g₂ nodeId := by
  rw [getConnectedText_factor, getConnectedText_factor, he, hv]

/-! ## Shapes of the store-level mutations -/

theorem createNodeM_shape (st : Store) (d : CanvasNodeData) :
    (createNodeM st d).2.graph.nodes
        = st.graph.nodes ++ [d.withId (generateNodeId st.graph)] ∧
      (createNodeM st d).2.graph.edges = st.graph.edges ∧
      (createNodeM st d).2.writes = st.writes ++ [(createNodeM st d).2.graph] :=
  ⟨rfl, rfl, rfl⟩

theorem createEdgeM_shape (st : Store) (ed : CanvasEdgeData) :
    (createEdgeM st ed).2.graph.edges
        = st.graph.edges ++ [ed.withId (generateEdgeId st.graph)] ∧
      (createEdgeM st ed).2.graph.nodes = st.graph.nodes ∧
      (createEdgeM st ed).2.writes = st.writes ++ [(createEdgeM st ed).2.graph] :=
  ⟨rfl, rfl, rfl⟩

theorem createOutputNode_shape (st : Store) (result : String)
    (sourceNodeId : String) :
    ∃ n : CanvasNode,
      (createOutputNode st result sourceNodeId).2.graph.nodes
          = st.graph.nodes ++ [n] ∧
        (createOutputNode st result sourceNodeId).2.graph.edges
          = st.graph.edges ∧
        (createOutputNode st result sourceNodeId).2.writes
          = st.writes ++ [(createOutputNode st result sourceNodeId).2.graph] :=
  ⟨_, rfl, rfl, rfl⟩

theorem getNode_append (g g' : CanvasData) (nodeId : String)
    (a : CanvasNode) (n : CanvasNode) (hg : g'.nodes = g.nodes ++ [a])
    (h : getNode g nodeId = some n) : getNode g' nodeId = some n := by
  unfold getNode at h ⊢
  rw [hg, List.find?_append, h]
  rfl

/-! ## The empty-input path of `handleRunBlock` -/

theorem getConnectedText_eq_empty (g : CanvasData) (nodeId : String)
    (hsrc : ∀ src ∈ getSourceNodes g nodeId,
      src.text = none ∨ src.text = some "") :
    getConnectedText g nodeId = "" := by
  unfold getConnectedText
  dsimp only
  have hnil : (getSourceNodes g nodeId).filter
      (fun node => node.type == NodeType.text && textTruthy node.text)
        = [] := by
    rw [List.filter_eq_nil_iff]
    intro a ha
    rcases hsrc a ha with h | h <;> simp [textTruthy, h]
  rw [hnil]
  rfl

/-- The `NoInputText` outcome: on a block node whose upstream nodes carry
no non-empty text, `handleRunBlock` (with the node's block type resolving
in the registry, since the registry lookup precedes the input check) moves
the node to `error` with the no-input message, creates no node and no edge,
and reports the failure. -/
theorem handleRunBlock_no_input (lookup : String → Option BlockDefinition)
    (executeBlock :
      BlockDefinition → String → List (String × String) → Except String String)
    (st : Store) (nodeId : String) (node : CanvasNode)
    (lc : LivingCanvasState) (bd : BlockDefinition)
    (hnode : getNode st.graph nodeId = some node)
    (hlc : node.livingCanvas = some lc)
    (hbd : lookup lc.blockType = some bd)
    (hsrc : ∀ src ∈ getSourceNodes st.graph nodeId,
      src.text = none ∨ src.text = some "") :
    ∃ st' : Store,
      handleRunBlock lookup executeBlock st nodeId
        = (st', RunOutcome.failure
            "No input text found. Connect text nodes to this block.") ∧
      getNode st'.graph nodeId = some ({ node with livingCanvas := some ({ lc with status := Status.error, error := some "No input text found. Connect text nodes to this block." }) }) ∧
      st'.graph.nodes.length = st.graph.nodes.length ∧
      st'.graph.edges = st.graph.edges := by
  obtain ⟨st1, hup1, hfind1, hedges1, hview1, hlen1, hw1⟩ :=
    updateNodeDataM_spec st nodeId
      ⟨some { lc with status := Status.processing }⟩ node hnode
  have hfind1' : getNode st1.graph nodeId = some
      ({ node with livingCanvas := some ({ lc with status := Status.processing }) }) := hfind1
  have htext : getConnectedText st1.graph nodeId = "" := by
    rw [getConnectedText_congr st1.graph st.graph nodeId hedges1 hview1]
    exact getConnectedText_eq_empty st.graph nodeId hsrc
  obtain ⟨st2, hup2, hfind2, hedges2, hview2, hlen2, hw2⟩ :=
    updateNodeDataM_spec st1 nodeId
      ⟨some ({ lc with status := Status.error, error := some "No input text found. Connect text nodes to this block." })⟩
      ({ node with livingCanvas := some ({ lc with status := Status.processing }) }) hfind1'
  refine ⟨st2, ?_, hfind2, by rw [hlen2, hlen1], by rw [hedges2, hedges1]⟩
  unfold handleRunBlock
  rw [hnode]
  simp only [hlc, hup1, hbd]
  rw [htext]
  simp only [show (jsTrim "" == "") = true from rfl, if_true]
  unfold runBlockCatch
  rw [hfind1']
  simp only [hup2]

/-! ## The success path of `handleRunBlock` -/

/-- Master description of a successful run: the node is re-read, set to
`processing` (write 1), the block resolves, the input is non-empty, the
executor succeeds; then the output node (write 2), the output edge
(write 3) and the `complete` status (write 4) are each persisted by their
own separate `saveCanvasData` call. -/
theorem handleRunBlock_success_path (lookup : String → Option BlockDefinition)
    (executeBlock :
      BlockDefinition → String → List (String × String) → Except String String)
    (st : Store) (nodeId : String) (node : CanvasNode)
    (lc : LivingCanvasState) (bd : BlockDefinition) (result : String)
    (hnode : getNode st.graph nodeId = some node)
    (hlc : node.livingCanvas = some lc)
    (hbd : lookup lc.blockType = some bd)
    (hinput : jsTrim (getConnectedText st.graph nodeId) ≠ "")
    (hexec : executeBlock bd (getConnectedText st.graph nodeId) lc.config
      = Except.ok result) :
    ∃ st1 st2 st3 st4 : Store,
      handleRunBlock lookup executeBlock st nodeId
        = (st4, RunOutcome.success) ∧
      st4.writes = st.writes ++ [st1.graph, st2.graph, st3.graph, st4.graph] ∧
      st1.graph.nodes.length = st.graph.nodes.length ∧
      st1.graph.edges = st.graph.edges ∧
      st2.graph.nodes.length = st.graph.nodes.length + 1 ∧
      st2.graph.edges = st.graph.edges ∧
      getNode st2.graph nodeId
        = some ({ node with livingCanvas := some ({ lc with status := Status.processing }) }) ∧
      st3.graph.nodes.length = st.graph.nodes.length + 1 ∧
      st3.graph.edges.length = st.graph.edges.length + 1 ∧
      st4.graph.nodes.length = st.graph.nodes.length + 1 ∧
      getNode st4.graph nodeId
        = some ({ node with livingCanvas := some ({ lc with status := Status.complete }) }) := by
  obtain ⟨st1, hup1, hfind1, hedges1, hview1, hlen1, hw1⟩ :=
    updateNodeDataM_spec st nodeId
      ⟨some { lc with status := Status.processing }⟩ node hnode
  have hfind1' : getNode st1.graph nodeId = some
      ({ node with livingCanvas := some ({ lc with status := Status.processing }) }) := hfind1
  have htext : getConnectedText st1.graph nodeId
      = getConnectedText st.graph nodeId :=
    getConnectedText_congr st1.graph st.graph nodeId hedges1 hview1
  have hcond : (jsTrim (getConnectedText st.graph nodeId) == "") = false :=
    beq_eq_false_iff_ne.mpr hinput
  obtain ⟨outNode, h2nodes, h2edges, h2writes⟩ :=
    createOutputNode_shape st1 result nodeId
  have hfind2 : getNode (createOutputNode st1 result nodeId).2.graph nodeId
      = some ({ node with livingCanvas := some ({ lc with status := Status.processing }) }) :=
    getNode_append st1.graph _ nodeId outNode _ h2nodes hfind1'
  obtain ⟨h3edges, h3nodes, h3writes⟩ :=
    createEdgeM_shape (createOutputNode st1 result nodeId).2
      { fromNode := nodeId,
        toNode := (createOutputNode st1 result nodeId).1,
        fromSide := some EdgeSide.right, toSide := some EdgeSide.left,
        color := some "#4CAF50", label := some "output" }
  have hfind3 : getNode (createEdgeM (createOutputNode st1 result nodeId).2
      { fromNode := nodeId,
        toNode := (createOutputNode st1 result nodeId).1,
        fromSide := some EdgeSide.right, toSide := some EdgeSide.left,
        color := some "#4CAF50", label := some "output" }).2.graph nodeId
      = some ({ node with livingCanvas := some ({ lc with status := Status.processing }) }) := by
    unfold getNode at hfind2 ⊢
    rw [h3nodes]
    exact hfind2
  obtain ⟨st4, hup4, hfind4, hedges4, hview4, hlen4, hw4⟩ :=
    updateNodeDataM_spec _ nodeId ⟨some { lc with status := Status.complete }⟩
      ({ node with livingCanvas := some ({ lc with status := Status.processing }) }) hfind3
  have hfind4' : getNode st4.graph nodeId = some
      ({ node with livingCanvas := some ({ lc with status := Status.complete }) }) := hfind4
  refine ⟨st1, (createOutputNode st1 result nodeId).2,
    (createEdgeM (createOutputNode st1 result nodeId).2
      { fromNode := nodeId,
        toNode := (createOutputNode st1 result nodeId).1,
        fromSide := some EdgeSide.right, toSide := some EdgeSide.left,
        color := some "#4CAF50", label := some "output" }).2,
    st4, ?_, ?_, hlen1, hedges1, ?_, ?_, hfind2, ?_, ?_, ?_, hfind4'⟩
  · unfold handleRunBlock
    rw [hnode]
    simp only [hlc, hup1, hbd]
    rw [htext]
    simp only [hcond, Bool.false_eq_true, if_false, hexec]
    rw [show createOutputNode st1 result nodeId
        = ((createOutputNode st1 result nodeId).1,
           (createOutputNode st1 result nodeId).2) from rfl]
    rw [show (createEdgeM (createOutputNode st1 result nodeId).2
        { fromNode := nodeId,
          toNode := (createOutputNode st1 result nodeId).1,
          fromSide := some EdgeSide.right, toSide := some EdgeSide.left,
          color := some "#4CAF50", label := some "output" })
        = ((createEdgeM (createOutputNode st1 result nodeId).2
            { fromNode := nodeId,
              toNode := (createOutputNode st1 result nodeId).1,
              fromSide := some EdgeSide.right, toSide := some EdgeSide.left,
              color := some "#4CAF50", label := some "output" }).1,
           (createEdgeM (createOutputNode st1 result nodeId).2
            { fromNode := nodeId,
              toNode := (createOutputNode st1 result nodeId).1,
              fromSide := some EdgeSide.right, toSide := some EdgeSide.left,
              color := some "#4CAF50", label := some "output" }).2) from rfl]
    simp only [hup4]
  · rw [hw4, h3writes, h2writes, hw1]
    simp [List.append_assoc]
  · rw [h2nodes, List.length_append, hlen1]
    rfl
  · rw [h2edges, hedges1]
  · rw [h3nodes, h2nodes, List.length_append, hlen1]
    rfl
  · rw [h3edges, h2edges, hedges1, List.length_append]
    rfl
  · rw [hlen4, h3nodes, h2nodes, List.length_append, hlen1]
    rfl

theorem find?_filter_of_imp {α : Type} (l : List α) (p q : α → Bool)
    (h : ∀ x, q x = true → p x = true) :
    (l.filter p).find? q = l.find? q := by
  induction l with
  | nil => rfl
  | cons a l ih =>
    by_cases hq : q a
    · rw [List.filter_cons_of_pos (h a hq), List.find?_cons_of_pos _ hq,
        List.find?_cons_of_pos _ hq]
    · by_cases hp : p a
      · rw [List.filter_cons_of_pos hp, List.find?_cons_of_neg _ hq,
          List.find?_cons_of_neg _ hq, ih]
      · rw [List.filter_cons_of_neg hp, List.find?_cons_of_neg _ hq, ih]

/-! ## Claim theorems -/

/-- C6: `createNode`'s generated id is not the id of any node already in
the graph, and two sequential `createNode` calls on the same graph return
different ids — uniqueness is a deterministic consequence of the
collision-checking counter scan of `generateNodeId`, not of randomness. -/
theorem createNode_id_unique (g : CanvasData) (d d' : CanvasNodeData) :
    hasNodeId g (createNode g d).1 = false ∧
      (createNode g d).1 ≠ (createNode (createNode g d).2 d').1 := by
  constructor
  · exact generateNodeId_fresh g
  · intro heq
    have htaken : hasNodeId (createNode g d).2 (createNode g d).1 = true := by
      simp [createNode, hasNodeId, CanvasNodeData.withId, List.any_append]
    have hfresh := generateNodeId_fresh (createNode g d).2
    rw [show (createNode (createNode g d).2 d').1
        = generateNodeId (createNode g d).2 from rfl] at heq
    rw [heq] at htaken
    rw [htaken] at hfresh
    cases hfresh

/-- C2 counterexample: on the empty graph — where neither endpoint
exists — `createEdge` is not rejected: it appends the edge anyway. -/
theorem createEdge_missing_endpoints_cex :
    hasNodeId { nodes := [], edges := [] } "a" = false ∧
      hasNodeId { nodes := [], edges := [] } "b" = false ∧
      (createEdge { nodes := [], edges := [] }
        ⟨"a", "b", none, none, none, none⟩).2.edges.length = 1 := by
  decide

/-- C2 amended: `createEdge` performs no endpoint-existence check: for
every graph and any endpoints, present or not, it appends exactly one new
edge carrying a fresh collision-checked id and leaves the nodes
untouched. -/
theorem createEdge_no_endpoint_check (g : CanvasData) (ed : CanvasEdgeData) :
    (createEdge g ed).2.nodes = g.nodes ∧
      (createEdge g ed).2.edges = g.edges ++ [ed.withId (generateEdgeId g)] ∧
      hasEdgeId g (createEdge g ed).1 = false :=
  ⟨rfl, rfl, generateEdgeId_fresh g⟩

/-- C5: after `createEdge(A, B)` and `deleteNode(A)`, no edge references
`A` and node `B` is still present, unchanged. -/
theorem createEdge_deleteNode_cascade (g : CanvasData) (A B : String)
    (nA nB : CanvasNode) (ed : CanvasEdgeData)
    (hA : getNode g A = some nA) (hB : getNode g B = some nB) (hAB : A ≠ B)
    (hfrom : ed.fromNode = A) (hto : ed.toNode = B) :
    (∀ e ∈ (deleteNode (createEdge g ed).2 A).edges,
        e.fromNode ≠ A ∧ e.toNode ≠ A) ∧
      getNode (deleteNode (createEdge g ed).2 A) B = some nB := by
  constructor
  · intro e he
    have hmem := List.of_mem_filter he
    simp only [Bool.and_eq_true, Bool.not_eq_true', beq_eq_false_iff_ne]
      at hmem
    exact hmem
  · show ((createEdge g ed).2.nodes.filter
        (fun node => !(node.id == A))).find? (fun node => node.id == B)
        = some nB
    rw [show (createEdge g ed).2.nodes = g.nodes from rfl]
    rw [find?_filter_of_imp g.nodes _ _ ?_]
    · exact hB
    · intro x hx
      rw [beq_iff_eq] at hx
      simp [hx, hAB.symm]

/-- C5 witness at the two-node fixture. -/
theorem createEdge_deleteNode_cascade_witness :
    (∀ e ∈ (deleteNode (createEdge gAB ⟨"a", "b", none, none, none, none⟩).2
        "a").edges, e.fromNode ≠ "a" ∧ e.toNode ≠ "a") ∧
      getNode (deleteNode (createEdge gAB
        ⟨"a", "b", none, none, none, none⟩).2 "a") "b" = some bN :=
  createEdge_deleteNode_cascade gAB "a" "b" aN bN
    ⟨"a", "b", none, none, none, none⟩ rfl rfl (by decide) rfl rfl

/-- C10 counterexample: deleting an id that is not a node still removes a
dangling edge referencing it, so the graph is not exactly unchanged. -/
theorem deleteNode_absent_id_cex :
    hasNodeId gDangling "x" = false ∧
      (deleteNode gDangling "x").edges.length = 0 ∧
      gDangling.edges.length = 1 := by
  decide

/-- C10 amended: `deleteNode` on an id that is not the id of any node
raises no error and leaves the node list exactly unchanged; the edge list
loses exactly the edges referencing that id, so the whole graph is
unchanged precisely when no (dangling) edge references it. -/
theorem deleteNode_absent_id_frame (g : CanvasData) (nodeId : String)
    (h : hasNodeId g nodeId = false) :
    (deleteNode g nodeId).nodes = g.nodes ∧
      (deleteNode g nodeId).edges = g.edges.filter
        (fun edge => !(edge.fromNode == nodeId) && !(edge.toNode == nodeId)) ∧
      ((∀ e ∈ g.edges, e.fromNode ≠ nodeId ∧ e.toNode ≠ nodeId) →
        deleteNode g nodeId = g) := by
  have hids := (hasNodeId_eq_false_iff g nodeId).mp h
  have hnodes : g.nodes.filter (fun node => !(node.id == nodeId)) = g.nodes := by
    rw [List.filter_eq_self]
    intro a ha
    have hne : a.id ≠ nodeId :=
      fun heq2 => hids (List.mem_map.mpr ⟨a, ha, heq2⟩)
    simp [hne]
  refine ⟨hnodes, rfl, ?_⟩
  intro hedges
  have hE : g.edges.filter
      (fun edge => !(edge.fromNode == nodeId) && !(edge.toNode == nodeId))
        = g.edges := by
    rw [List.filter_eq_self]
    intro e he
    obtain ⟨h1, h2⟩ := hedges e he
    simp [h1, h2]
  unfold deleteNode
  rw [hnodes, hE]

/-- C10 witness: on a graph with no dangling edges, deleting an absent id
changes nothing. -/
theorem deleteNode_absent_id_frame_witness :
    (deleteNode gAB "z").nodes = gAB.nodes ∧
      (deleteNode gAB "z").edges = gAB.edges.filter
        (fun edge => !(edge.fromNode == "z") && !(edge.toNode == "z")) ∧
      ((∀ e ∈ gAB.edges, e.fromNode ≠ "z" ∧ e.toNode ≠ "z") →
        deleteNode gAB "z" = gAB) :=
  deleteNode_absent_id_frame gAB "z" (by decide)

/-- C8 counterexample: a manifest whose `id` is present but empty passes
validation and the block is loaded, contradicting the claim that empty
fields fail validation. -/
theorem validateBlockConfig_empty_id_cex :
    validateBlockConfig cfgEmptyId = true ∧ cfgEmptyId.id = some "" ∧
      (loadBlock cfgEmptyId "blocks/x/executor.js").isSome = true := by
  decide

/-- C8 amended: validation (and hence loading) requires only that the five
manifest fields `id`, `name`, `description`, `author`, `version` are
present (not `undefined`); empty values are accepted. -/
theorem loadBlock_presence_only (config : RawBlockConfig)
    (executorPath : String) :
    (loadBlock config executorPath).isSome = true ↔
      (config.id.isSome = true ∧ config.name.isSome = true ∧
        config.description.isSome = true ∧ config.author.isSome = true ∧
        config.version.isSome = true) := by
  unfold loadBlock
  by_cases h : validateBlockConfig config = true
  · rw [if_pos h]
    simp only [Option.isSome_some, true_iff]
    unfold validateBlockConfig at h
    simpa [Bool.and_eq_true, and_assoc] using h
  · rw [if_neg h]
    simp only [Option.isSome_none, Bool.false_eq_true, false_iff]
    intro hc
    apply h
    unfold validateBlockConfig
    simp [Bool.and_eq_true, hc.1, hc.2.1, hc.2.2.1, hc.2.2.2.1, hc.2.2.2.2]

/-- C9 counterexample: content that parses to a truthy value without the
`nodes`/`edges` collections (e.g. the object literal `{}`) is not turned
into "absent" — it is stored as is, and the next `getNode` throws instead
of behaving as on "no graph". -/
theorem loadCanvasData_structural_cex :
    loadCanvasData (StoredContent.parsed (ParsedValue.truthy
        { nodes := none, edges := none })) ≠ ParsedValue.falsy ∧
      getNodeLoaded (loadCanvasData (StoredContent.parsed
        (ParsedValue.truthy { nodes := none, edges := none }))) "n"
        = Except.error "TypeError: this.canvasData.nodes is undefined" := by
  exact ⟨by decide, rfl⟩

/-- C9 amended: `canvasData` ends up falsy — the state every query treats
as "no graph", answering `undefined`/`[]` without crashing — exactly when
the content is not deserializable or parses to a falsy value (`null`,
`false`, `0`, `""`); but content parsing to a truthy value that lacks the
`nodes` collection is stored as is, and a subsequent `getNode` throws a
`TypeError` instead of behaving as on "no graph". -/
theorem loadCanvasData_absent_behaviour (c : StoredContent)
    (nodeId : String) (edgesProp : Option (List CanvasEdge)) :
    (loadCanvasData c = ParsedValue.falsy ↔
      (c = StoredContent.malformed ∨
        c = StoredContent.parsed ParsedValue.falsy)) ∧
      getNodeLoaded ParsedValue.falsy nodeId = Except.ok none ∧
      getSourceNodesLoaded ParsedValue.falsy nodeId = Except.ok [] ∧
      getNodeLoaded (loadCanvasData (StoredContent.parsed
        (ParsedValue.truthy ⟨none, edgesProp⟩))) nodeId
        = Except.error "TypeError: this.canvasData.nodes is undefined" := by
  refine ⟨?_, rfl, rfl, rfl⟩
  cases c with
  | malformed => simp [loadCanvasData]
  | parsed value => cases value <;> simp [loadCanvasData]

/-- C1 counterexample: a `runBlock` request on a node whose status is
already `processing` is not rejected — the run proceeds to success and the
graph changes (a new output node appears). -/
theorem runBlock_processing_not_rejected_cex :
    procLC.status = Status.processing ∧
      (handleRunBlock sampleLookup sampleExecOk sampleStoreProcessing
        "p").2 = RunOutcome.success ∧
      (handleRunBlock sampleLookup sampleExecOk sampleStoreProcessing
        "p").1.graph.nodes.length = 3 ∧
      sampleStoreProcessing.graph.nodes.length = 2 := by
  decide

/-- C1 amended: `handleRunBlock` performs no in-flight check — a request
on an already-`processing` node is handled exactly like any other run: the
status is re-set to `processing` and, when the block resolves, input is
non-empty and the executor succeeds, the run completes, adding the output
node and ending with status `complete`. -/
theorem handleRunBlock_processing_proceeds
    (lookup : String → Option BlockDefinition)
    (executeBlock :
      BlockDefinition → String → List (String × String) → Except String String)
    (st : Store) (nodeId : String) (node : CanvasNode)
    (lc : LivingCanvasState) (bd : BlockDefinition) (result : String)
    (hnode : getNode st.graph nodeId = some node)
    (hlc : node.livingCanvas = some lc)
    (hstatus : lc.status = Status.processing)
    (hbd : lookup lc.blockType = some bd)
    (hinput : jsTrim (getConnectedText st.graph nodeId) ≠ "")
    (hexec : executeBlock bd (getConnectedText st.graph nodeId) lc.config
      = Except.ok result) :
    ∃ st' : Store,
      handleRunBlock lookup executeBlock st nodeId
        = (st', RunOutcome.success) ∧
      st'.graph.nodes.length = st.graph.nodes.length + 1 ∧
      getNode st'.graph nodeId
        = some ({ node with livingCanvas := some ({ lc with status := Status.complete }) }) := by
  obtain ⟨st1, st2, st3, st4, hrun, hw, h1l, h1e, h2l, h2e, h2f, h3l, h3e,
    h4l, h4f⟩ :=
    handleRunBlock_success_path lookup executeBlock st nodeId node lc bd
      result hnode hlc hbd hinput hexec
  exact ⟨st4, hrun, h4l, h4f⟩

/-- C1 witness at the `processing` fixture. -/
theorem handleRunBlock_processing_proceeds_witness :
    ∃ st' : Store,
      handleRunBlock sampleLookup sampleExecOk sampleStoreProcessing "p"
        = (st', RunOutcome.success) ∧
      st'.graph.nodes.length
        = sampleStoreProcessing.graph.nodes.length + 1 ∧
      getNode st'.graph "p"
        = some ({ procNode with livingCanvas := some ({ procLC with status := Status.complete }) }) :=
  handleRunBlock_processing_proceeds sampleLookup sampleExecOk
    sampleStoreProcessing "p" procNode procLC sampleBlockDef
    "ECHO: Hello world" rfl rfl rfl rfl (by decide) rfl

/-- C3 witness: a lone block node with no upstream nodes errors with the
no-input message and the node count is unchanged. -/
theorem handleRunBlock_no_input_witness :
    ∃ st' : Store,
      handleRunBlock sampleLookup sampleExecOk loneBlockStore "p"
        = (st', RunOutcome.failure
            "No input text found. Connect text nodes to this block.") ∧
      getNode st'.graph "p" = some ({ idleNode with livingCanvas := some ({ idleLC with status := Status.error, error := some "No input text found. Connect text nodes to this block." }) }) ∧
      st'.graph.nodes.length = loneBlockStore.graph.nodes.length ∧
      st'.graph.edges = loneBlockStore.graph.edges :=
  handleRunBlock_no_input sampleLookup sampleExecOk loneBlockStore "p"
    idleNode idleLC sampleBlockDef rfl rfl rfl
    (by intro src h; cases h)

/-- C4 counterexample: a successful run issues four separate durable
writes, and the second persisted snapshot already holds the output node
while the output edge is missing and the source node is still
`processing` — a durable state with only some of the three success
mutations. -/
theorem runBlock_atomic_write_cex :
    (handleRunBlock sampleLookup sampleExecOk sampleStoreIdle
        "p").1.writes.length = 4 ∧
      ((handleRunBlock sampleLookup sampleExecOk sampleStoreIdle
          "p").1.writes[1]?).map
        (fun g => (g.nodes.length, g.edges.length,
          (getNode g "p").map (fun n => n.livingCanvas.map
            (fun l => l.status))))
        = some (3, 1, some (some Status.processing)) := by
  decide

/-- C4 amended: the three success-path mutations are persisted by three
separate `write()`s (four in the whole run, counting the `processing`
write), and a durable snapshot in which the output node exists but the
edge and the `complete` status do not is observable. -/
theorem runBlock_success_separate_writes
    (lookup : String → Option BlockDefinition)
    (executeBlock :
      BlockDefinition → String → List (String × String) → Except String String)
    (st : Store) (nodeId : String) (node : CanvasNode)
    (lc : LivingCanvasState) (bd : BlockDefinition) (result : String)
    (hnode : getNode st.graph nodeId = some node)
    (hlc : node.livingCanvas = some lc)
    (hbd : lookup lc.blockType = some bd)
    (hinput : jsTrim (getConnectedText st.graph nodeId) ≠ "")
    (hexec : executeBlock bd (getConnectedText st.graph nodeId) lc.config
      = Except.ok result) :
    ∃ gA gB gC gD : CanvasData,
      (handleRunBlock lookup executeBlock st nodeId).1.writes
        = st.writes ++ [gA, gB, gC, gD] ∧
      gB.nodes.length = st.graph.nodes.length + 1 ∧
      gB.edges = st.graph.edges ∧
      getNode gB nodeId
        = some ({ node with livingCanvas := some ({ lc with status := Status.processing }) }) := by
  obtain ⟨st1, st2, st3, st4, hrun, hw, h1l, h1e, h2l, h2e, h2f, h3l, h3e,
    h4l, h4f⟩ :=
    handleRunBlock_success_path lookup executeBlock st nodeId node lc bd
      result hnode hlc hbd hinput hexec
  refine ⟨st1.graph, st2.graph, st3.graph, st4.graph, ?_, h2l, h2e, h2f⟩
  rw [hrun]
  exact hw

/-- C4 witness at the idle fixture. -/
theorem runBlock_success_separate_writes_witness :
    ∃ gA gB gC gD : CanvasData,
      (handleRunBlock sampleLookup sampleExecOk sampleStoreIdle
          "p").1.writes
        = sampleStoreIdle.writes ++ [gA, gB, gC, gD] ∧
      gB.nodes.length = sampleStoreIdle.graph.nodes.length + 1 ∧
      gB.edges = sampleStoreIdle.graph.edges ∧
      getNode gB "p"
        = some ({ idleNode with livingCanvas := some ({ idleLC with status := Status.processing }) }) :=
  runBlock_success_separate_writes sampleLookup sampleExecOk
    sampleStoreIdle "p" idleNode idleLC sampleBlockDef
    "ECHO: Hello world" rfl rfl rfl (by decide) rfl

/-- C7 counterexample: when the completion call fails, the clarification
block node, the input node and their edge — created before the call —
remain in the graph: the failure does mutate the graph. -/
theorem clarify_failure_mutates_cex :
    emptyStore.graph.nodes.length = 0 ∧
      (handleClarifyText sampleExecFail emptyStore "txt"
        "why").1.graph.nodes.length = 2 ∧
      (handleClarifyText sampleExecFail emptyStore "txt"
        "why").1.graph.edges.length = 1 ∧
      (handleClarifyText sampleExecFail emptyStore "txt" "why").2
        = RunOutcome.failure "Clarification failed: provider down" := by
  decide

/-- C7 amended: on a failed completion call `handleClarifyText` reports the
error to the caller, but the two nodes and the edge created before the call
stay in the graph (only the output node and its edge are absent). -/
theorem clarify_failure_leaves_created_nodes
    (executeBlock :
      BlockDefinition → String → List (String × String) → Except String String)
    (st : Store) (selectedText question message : String)
    (hexec : executeBlock clarifierBlockDefinition
        ("Question: " ++ question ++ "\n\nText to clarify: " ++ selectedText)
        clarificationConfig = Except.error message) :
    (handleClarifyText executeBlock st selectedText question).2
        = RunOutcome.failure ("Clarification failed: " ++ message) ∧
      (handleClarifyText executeBlock st selectedText
        question).1.graph.nodes.length = st.graph.nodes.length + 2 ∧
      (handleClarifyText executeBlock st selectedText
        question).1.graph.edges.length = st.graph.edges.length + 1 := by
  unfold handleClarifyText
  dsimp only [createNodeM, createNode, createEdgeM, createEdge, persist]
  rw [hexec]
  refine ⟨rfl, ?_, ?_⟩ <;> simp

/-- C7 witness at the empty store. -/
theorem clarify_failure_leaves_created_nodes_witness :
    (handleClarifyText sampleExecFail emptyStore "txt" "why").2
        = RunOutcome.failure ("Clarification failed: " ++ "provider down") ∧
      (handleClarifyText sampleExecFail emptyStore "txt"
        "why").1.graph.nodes.length = emptyStore.graph.nodes.length + 2 ∧
      (handleClarifyText sampleExecFail emptyStore "txt"
        "why").1.graph.edges.length = emptyStore.graph.edges.length + 1 :=
  clarify_failure_leaves_created_nodes sampleExecFail emptyStore "txt"
    "why" "provider down" rfl

end LivingCanvas
